import Mathlib

/-!
A verification development for the `rupdf` PDF renderer.

The public Python package (`src/python/rupdf/__init__.py`) re-exports the
native entry point `render_pdf` together with the error type `RupdfError`;
the native core itself is a compiled extension whose sources are not part of
the repository checkout, so the pipeline below is modelled from the
specification (`spec.md`): document validation, per-page content emission,
object serialization, optional zlib compression, and xref/trailer emission.
Byte sequences are modelled as `List Char`, one character per output byte.
-/

namespace Rupdf

/-- Byte-string view of a string literal: the list of its characters. -/
def chs (s : String) : List Char := s.data

/-- Decimal digit character for a value `0..9`. -/
def digitChar (n : Nat) : Char := Char.ofNat (48 + n)

/-- Accumulator-style decimal digits of a natural number; the first argument
is fuel (any value at least the digit count gives the digits). -/
def natStrGo : Nat → Nat → List Char → List Char
  | 0, _, acc => acc
  | fuel + 1, n, acc =>
    if n < 10 then digitChar n :: acc
    else natStrGo fuel (n / 10) (digitChar (n % 10) :: acc)

/-- Decimal digit list of a natural number. -/
def natStrData (n : Nat) : List Char := natStrGo (n + 1) n []

/-- Decimal representation of a natural number. -/
def natStr (n : Nat) : String := ⟨natStrData n⟩

/-- Decimal representation of an integer (with a leading minus sign). -/
def intStr (i : Int) : String := if i < 0 then "-" ++ natStr i.natAbs else natStr i.natAbs

/-- Drop trailing zero digits from a fractional digit run. -/
def stripZeros (l : List Char) : List Char := (l.reverse.dropWhile (fun c => c = '0')).reverse

/-- Left-pad a digit list with zeros to a given width. -/
def padZeros (w : Nat) (l : List Char) : List Char := List.replicate (w - l.length) '0' ++ l

/-- Modelled from the spec (section 4.1): canonical number formatting for the
binary writer — integers print without a decimal point or trailing zeros,
non-integral rationals print with up to six fractional digits. -/
def fmtNum (q : ℚ) : String :=
  if q.den = 1 then intStr q.num
  else
    (if q < 0 then "-" else "") ++ natStr (⌊|q|⌋).toNat ++ "." ++
      ⟨stripZeros (padZeros 6 (natStrData (((|q| - ⌊|q|⌋) * 1000000).floor.toNat % 1000000)))⟩

/-- RGBA color: four components, each expected in `0..255`. -/
structure Rgba where
  r : Nat
  g : Nat
  b : Nat
  a : Nat
deriving DecidableEq

/-- Raw drawing element as supplied by the caller: a kind tag plus optional
fields; which fields are required depends on the kind (spec section 3). -/
structure RawElement where
  type : String
  x : Option ℚ := none
  y : Option ℚ := none
  w : Option ℚ := none
  h : Option ℚ := none
  x1 : Option ℚ := none
  y1 : Option ℚ := none
  x2 : Option ℚ := none
  y2 : Option ℚ := none
  text : Option String := none
  font : Option String := none
  size : Option ℚ := none
  value : Option String := none
  image_ref : Option String := none
  human_readable : Option Bool := none
  font_size : Option ℚ := none
  color : Option Rgba := none
  stroke : Option ℚ := none
  stroke_color : Option Rgba := none
  fill_color : Option Rgba := none
  corner_radius : Option ℚ := none
  background : Option Rgba := none
  align : Option String := none
  vertical_anchor : Option String := none
deriving DecidableEq

/-- Horizontal alignment of a text run. -/
inductive HAlign where
  | left
  | center
  | right
deriving DecidableEq

/-- Vertical anchor of a text run. -/
inductive VAnchor where
  | baseline
  | capline
  | center
deriving DecidableEq

/-- Parsed drawing element: the tagged union of spec section 3. -/
inductive Element where
  | text (x y : ℚ) (content : String) (font : String) (size : ℚ)
      (color : Option Rgba) (align : HAlign) (vanchor : VAnchor)
  | textbox (x y w h : ℚ) (content : String) (font : String) (size : ℚ)
      (color : Option Rgba)
  | rect (x y w h : ℚ) (stroke : ℚ) (strokeColor fillColor : Option Rgba)
      (cornerRadius : ℚ)
  | line (x1 y1 x2 y2 : ℚ) (stroke : ℚ) (color : Option Rgba)
  | image (x y w : ℚ) (h : Option ℚ) (ref : String)
  | barcode128 (x y w h : ℚ) (value : String) (humanReadable : Bool)
      (font : Option String) (fontSize : ℚ)
  | qrcode (x y size : ℚ) (value : String) (color background : Option Rgba)
deriving DecidableEq

/-- Font resource: exactly one of `path` or `bytes` must be set. -/
structure FontRes where
  path : Option String := none
  data : Option String := none
deriving DecidableEq

/-- Image resource: exactly one of `path` or `bytes` must be set. -/
structure ImageRes where
  path : Option String := none
  data : Option String := none
deriving DecidableEq

/-- Named fonts and named images of a document. -/
structure Resources where
  fonts : List (String × FontRes)
  images : List (String × ImageRes) := []
deriving DecidableEq

/-- A page: size in points, optional background color, ordered elements. -/
structure Page where
  size : ℚ × ℚ
  background : Option Rgba := none
  elements : List RawElement := []
deriving DecidableEq

/-- Optional document metadata (spec section 3). -/
structure Metadata where
  title : Option String := none
  author : Option String := none
  subject : Option String := none
  creator : Option String := none
  producer : Option String := none
deriving DecidableEq

/-- A document: metadata, ordered pages, and resources. -/
structure Document where
  metadata : Option Metadata := none
  pages : List Page
  resources : Resources
deriving DecidableEq

/-- Rendering options: `compress` defaults to `false` (spec section 6). -/
structure Options where
  compress : Bool := false
deriving DecidableEq

/-- Default options value used when the caller passes no options. -/
def defaultOptions : Options := {}

/-- Public names exported by `src/python/rupdf/__init__.py` (its `__all__`). -/
def rupdfAll : List String := ["render_pdf", "RupdfError"]

/-- Parsed page: positive dimensions, background, parsed elements. -/
structure PPage where
  w : ℚ
  h : ℚ
  background : Option Rgba
  els : List Element
deriving DecidableEq

/-- Parsed document, ready for assembly. -/
structure PDoc where
  metadata : Option Metadata
  fonts : List (String × FontRes)
  images : List (String × ImageRes)
  pages : List PPage
deriving DecidableEq

/-- Structural-recursion variant of `mapM` for `Except`: parse a list
left-to-right, stopping at the first error (spec section 7: the first
unrecoverable condition aborts). -/
def parseList {α β : Type} (f : α → Except String β) : List α → Except String (List β)
  | [] => .ok []
  | x :: xs => do
    let y ← f x
    let ys ← parseList f xs
    .ok (y :: ys)

/-- Require an optional field, with a contextual message naming it. -/
def req {α : Type} (o : Option α) (msg : String) : Except String α :=
  match o with
  | some v => .ok v
  | none => .error msg

/-- The element kinds recognized by the spec's element table (section 3). -/
def knownKinds : List String :=
  ["text", "textbox", "rect", "line", "image", "barcode128", "qrcode"]

/-- Check that all four color components are in `0..255` (spec section 6). -/
def checkColor (c : Rgba) : Except String Unit :=
  if c.r ≤ 255 ∧ c.g ≤ 255 ∧ c.b ≤ 255 ∧ c.a ≤ 255 then .ok ()
  else .error "Color component out of range"

/-- Check an optional color. -/
def checkColorOpt (c : Option Rgba) : Except String Unit :=
  match c with
  | some v => checkColor v
  | none => .ok ()

/-- Check that a font alias resolves in the document resources. -/
def checkFontRef (res : Resources) (name : String) : Except String Unit :=
  if res.fonts.any (fun p => p.1 == name) then .ok ()
  else .error ("Font not found: " ++ name)

/-- Check that an image alias resolves in the document resources. -/
def checkImageRef (res : Resources) (name : String) : Except String Unit :=
  if res.images.any (fun p => p.1 == name) then .ok ()
  else .error ("Image not found: " ++ name)

/-- Parse the optional horizontal alignment field (default `left`). -/
def parseHAlign : Option String → Except String HAlign
  | none => .ok .left
  | some "left" => .ok .left
  | some "center" => .ok .center
  | some "right" => .ok .right
  | some s => .error ("Invalid align: " ++ s)

/-- Parse the optional vertical anchor field (default `baseline`). -/
def parseVAnchor : Option String → Except String VAnchor
  | none => .ok .baseline
  | some "baseline" => .ok .baseline
  | some "capline" => .ok .capline
  | some "center" => .ok .center
  | some s => .error ("Invalid vertical_anchor: " ++ s)

/-- Modelled from the spec (sections 3, 7, 9): parse one raw element into the
tagged union, checking the kind tag, required fields, resource references and
color ranges; an unknown kind raises an error naming it. -/
def parseElement (res : Resources) (e : RawElement) : Except String Element :=
  if e.type = "text" then do
    let x ← req e.x "text element missing required field: x"
    let y ← req e.y "text element missing required field: y"
    let tx ← req e.text "text element missing required field: text"
    let f ← req e.font "text element missing required field: font"
    let sz ← req e.size "text element missing required field: size"
    checkFontRef res f
    checkColorOpt e.color
    let al ← parseHAlign e.align
    let va ← parseVAnchor e.vertical_anchor
    .ok (.text x y tx f sz e.color al va)
  else if e.type = "textbox" then do
    let x ← req e.x "textbox element missing required field: x"
    let y ← req e.y "textbox element missing required field: y"
    let w ← req e.w "textbox element missing required field: w"
    let h ← req e.h "textbox element missing required field: h"
    let tx ← req e.text "textbox element missing required field: text"
    let f ← req e.font "textbox element missing required field: font"
    let sz ← req e.size "textbox element missing required field: size"
    checkFontRef res f
    checkColorOpt e.color
    .ok (.textbox x y w h tx f sz e.color)
  else if e.type = "rect" then do
    let x ← req e.x "rect element missing required field: x"
    let y ← req e.y "rect element missing required field: y"
    let w ← req e.w "rect element missing required field: w"
    let h ← req e.h "rect element missing required field: h"
    checkColorOpt e.stroke_color
    checkColorOpt e.fill_color
    .ok (.rect x y w h (e.stroke.getD 0) e.stroke_color e.fill_color (e.corner_radius.getD 0))
  else if e.type = "line" then do
    let a1 ← req e.x1 "line element missing required field: x1"
    let b1 ← req e.y1 "line element missing required field: y1"
    let a2 ← req e.x2 "line element missing required field: x2"
    let b2 ← req e.y2 "line element missing required field: y2"
    checkColorOpt e.color
    .ok (.line a1 b1 a2 b2 (e.stroke.getD 1) e.color)
  else if e.type = "image" then do
    let x ← req e.x "image element missing required field: x"
    let y ← req e.y "image element missing required field: y"
    let w ← req e.w "image element missing required field: w"
    let r ← req e.image_ref "image element missing required field: image_ref"
    checkImageRef res r
    .ok (.image x y w e.h r)
  else if e.type = "barcode128" then do
    let x ← req e.x "barcode128 element missing required field: x"
    let y ← req e.y "barcode128 element missing required field: y"
    let w ← req e.w "barcode128 element missing required field: w"
    let h ← req e.h "barcode128 element missing required field: h"
    let v ← req e.value "barcode128 element missing required field: value"
    if v.all (fun c => c.toNat ≤ 127) then
      if e.human_readable.getD false then do
        let f ← req e.font "barcode128 element with human_readable requires font"
        checkFontRef res f
        .ok (.barcode128 x y w h v true (some f) (e.font_size.getD 10))
      else
        .ok (.barcode128 x y w h v false none (e.font_size.getD 10))
    else .error "barcode128 value must be ASCII"
  else if e.type = "qrcode" then do
    let x ← req e.x "qrcode element missing required field: x"
    let y ← req e.y "qrcode element missing required field: y"
    let sz ← req e.size "qrcode element missing required field: size"
    let v ← req e.value "qrcode element missing required field: value"
    checkColorOpt e.color
    checkColorOpt e.background
    .ok (.qrcode x y sz v e.color e.background)
  else .error ("Unknown element type: " ++ e.type)

/-- Modelled from the spec (sections 3, 7): validate a page — dimensions must
be strictly positive — then parse its elements in input order. -/
def parsePage (res : Resources) (p : Page) : Except String PPage :=
  if 0 < p.size.1 ∧ 0 < p.size.2 then do
    checkColorOpt p.background
    let els ← parseList (parseElement res) p.elements
    .ok { w := p.size.1, h := p.size.2, background := p.background, els := els }
  else .error ("Invalid page dimensions: " ++ fmtNum p.size.1 ++ " x " ++ fmtNum p.size.2)

/-- Check that a font resource sets exactly one of `path` or `bytes`. -/
def checkFontRes (f : FontRes) : Except String Unit :=
  match f.path, f.data with
  | some _, some _ => .error "Font resource must set exactly one of path or bytes"
  | none, none => .error "Font resource must set exactly one of path or bytes"
  | _, _ => .ok ()

/-- Check that an image resource sets exactly one of `path` or `bytes`. -/
def checkImageRes (f : ImageRes) : Except String Unit :=
  match f.path, f.data with
  | some _, some _ => .error "Image resource must set exactly one of path or bytes"
  | none, none => .error "Image resource must set exactly one of path or bytes"
  | _, _ => .ok ()

/-- Modelled from the spec (section 2 data flow): validate resources, then
validate and parse every page in input order; the first failure aborts. -/
def parseDoc (d : Document) : Except String PDoc := do
  _ ← parseList (fun p : String × FontRes => checkFontRes p.2) d.resources.fonts
  _ ← parseList (fun p : String × ImageRes => checkImageRes p.2) d.resources.images
  let ps ← parseList (parsePage d.resources) d.pages
  .ok { metadata := d.metadata, fonts := d.resources.fonts,
        images := d.resources.images, pages := ps }

/-- Boolean success test for `Except`. -/
def exOk {α : Type} : Except String α → Bool
  | .ok _ => true
  | .error _ => false

/-- The error message of a failed computation (empty on success). -/
def exErr {α : Type} : Except String α → String
  | .ok _ => ""
  | .error m => m

/-- A document is valid when validation and parsing succeed. -/
def validDoc (d : Document) : Prop := exOk (parseDoc d) = true

instance (d : Document) : Decidable (validDoc d) :=
  inferInstanceAs (Decidable (exOk (parseDoc d) = true))

/-- Hexadecimal digit character for a value `0..15`. -/
def hexDigit (n : Nat) : Char := if n < 10 then digitChar n else Char.ofNat (87 + n)

/-- Modelled from the spec (section 4.2): the hex string of 4-digit glyph ids
for a text run; the character-to-glyph table lives in the missing native font
parser and is modelled as the identity on code points. -/
def glyphHex (s : String) : String :=
  ⟨s.data.flatMap (fun c =>
    let n := c.toNat % 65536
    [hexDigit (n / 4096), hexDigit (n / 256 % 16), hexDigit (n / 16 % 16), hexDigit (n % 16)])⟩

/-- Modelled from the spec (section 4.2): advance width of a run at a given
size; per-glyph advances come from the missing font parser and are modelled
as half an em each. -/
def runWidth (s : String) (size : ℚ) : ℚ := (s.length : ℚ) * size / 2

/-- Modelled from the spec (section 4.2): baseline shift for a vertical
anchor, with the missing parser's scaled metrics modelled as ascent `0.8em`,
descent `-0.2em`, cap height `0.7em`. -/
def anchorShift (va : VAnchor) (size : ℚ) : ℚ :=
  match va with
  | .baseline => 0
  | .capline => 7 * size / 10
  | .center => size / 2

/-- Horizontal alignment shift for a run of width `w`. -/
def alignShift (al : HAlign) (w : ℚ) : ℚ :=
  match al with
  | .left => 0
  | .center => -(w / 2)
  | .right => -w

/-- Non-stroking color operator `r g b rg` with components scaled to `[0,1]`. -/
def setFill (c : Rgba) : String :=
  fmtNum ((c.r : ℚ) / 255) ++ " " ++ fmtNum ((c.g : ℚ) / 255) ++ " " ++
    fmtNum ((c.b : ℚ) / 255) ++ " rg\n"

/-- Stroking color operator `r g b RG` with components scaled to `[0,1]`. -/
def setStroke (c : Rgba) : String :=
  fmtNum ((c.r : ℚ) / 255) ++ " " ++ fmtNum ((c.g : ℚ) / 255) ++ " " ++
    fmtNum ((c.b : ℚ) / 255) ++ " RG\n"

/-- Optional color operator. -/
def setFillOpt (c : Option Rgba) : String :=
  match c with
  | some v => setFill v
  | none => ""

/-- Index of a font alias in the resource list (resource name `/F<idx>`). -/
def fontIdx (fonts : List (String × FontRes)) (name : String) : Nat :=
  fonts.findIdx (fun p => p.1 == name)

/-- Index of an image alias in the resource list (resource name `/Im<idx>`). -/
def imageIdx (images : List (String × ImageRes)) (name : String) : Nat :=
  images.findIdx (fun p => p.1 == name)

/-- Greedy word wrap (spec section 4.3): accumulate tokens while the line
fits in `w`; a single over-long token goes on its own line. -/
def wrapAux (w size : ℚ) : List String → String → List String
  | [], cur => if cur = "" then [] else [cur]
  | t :: ts, cur =>
    if cur = "" then wrapAux w size ts t
    else if runWidth (cur ++ " " ++ t) size ≤ w then wrapAux w size ts (cur ++ " " ++ t)
    else cur :: wrapAux w size ts t

/-- Text-showing operators for one line at a pen position (spec section 4.2). -/
def textRun (fonts : List (String × FontRes)) (f : String) (size bx by' : ℚ)
    (content : String) : String :=
  "BT\n/F" ++ natStr (fontIdx fonts f) ++ " " ++ fmtNum size ++ " Tf\n" ++
    fmtNum bx ++ " " ++ fmtNum by' ++ " Td\n<" ++ glyphHex content ++ "> Tj\nET\n"

/-- Modelled from the spec (sections 4.2-4.4): content-stream operators for
one element on a page of height `hPage`; the user-space origin is top-left,
so every vertical position is reflected with `y_pdf = hPage - y_user`.
The Code 128 module pattern, the QR matrix and the SVG render tree live in
the missing native core; their drawing is abstracted to their bounding
geometry, which no verified claim inspects. -/
def emitElement (fonts : List (String × FontRes)) (images : List (String × ImageRes))
    (hPage : ℚ) : Element → String
  | .text x y tx f sz color al va =>
    setFillOpt color ++
      textRun fonts f sz (x + alignShift al (runWidth tx sz)) (hPage - (y + anchorShift va sz)) tx
  | .textbox x y w _h tx f sz color =>
    setFillOpt color ++
      String.join ((wrapAux w sz (tx.splitOn " ") "").enum.map (fun li =>
        textRun fonts f sz x (hPage - (y + 4 * sz / 5 + (li.1 : ℚ) * (6 * sz / 5))) li.2))
  | .rect x y w h stroke strokeColor fillColor _r =>
    setFillOpt fillColor ++ (match strokeColor with | some c => setStroke c | none => "") ++
      fmtNum stroke ++ " w\n" ++
      fmtNum x ++ " " ++ fmtNum (hPage - y - h) ++ " " ++ fmtNum w ++ " " ++ fmtNum h ++ " re " ++
      (if fillColor.isSome ∧ 0 < stroke then "B"
       else if fillColor.isSome then "f"
       else if 0 < stroke then "S" else "n") ++ "\n"
  | .line a1 b1 a2 b2 stroke color =>
    (match color with | some c => setStroke c | none => "") ++
      fmtNum stroke ++ " w\n" ++
      fmtNum a1 ++ " " ++ fmtNum (hPage - b1) ++ " m " ++
      fmtNum a2 ++ " " ++ fmtNum (hPage - b2) ++ " l S\n"
  | .image x y w h ref =>
    let hEff := h.getD w
    "q\n" ++ fmtNum w ++ " 0 0 " ++ fmtNum hEff ++ " " ++ fmtNum x ++ " " ++
      fmtNum (hPage - y - hEff) ++ " cm\n/Im" ++ natStr (imageIdx images ref) ++ " Do\nQ\n"
  | .barcode128 x y w h _v hr f fsz =>
    let band := if hr then 6 * fsz / 5 else 0
    "0 0 0 rg\n" ++ fmtNum x ++ " " ++ fmtNum (hPage - y - (h - band)) ++ " " ++
      fmtNum w ++ " " ++ fmtNum (h - band) ++ " re f\n" ++
      (match f with
       | some fn => if hr then textRun fonts fn fsz (x + w / 2) (hPage - (y + h)) _v else ""
       | none => "")
  | .qrcode x y sz _v color background =>
    (match background with | some c => setFill c | none => "1 1 1 rg\n") ++
      fmtNum x ++ " " ++ fmtNum (hPage - y - sz) ++ " " ++ fmtNum sz ++ " " ++ fmtNum sz ++
      " re f\n" ++
      (match color with | some c => setFill c | none => "0 0 0 rg\n") ++
      fmtNum x ++ " " ++ fmtNum (hPage - y - sz) ++ " " ++ fmtNum sz ++ " " ++ fmtNum sz ++
      " re f\n"

/-- Content stream of a page: optional background fill, then the elements in
input order (spec section 5: drawing order is strictly the input order). -/
def emitPage (fonts : List (String × FontRes)) (images : List (String × ImageRes))
    (pp : PPage) : String :=
  (match pp.background with
   | some c => setFill c ++ "0 0 " ++ fmtNum pp.w ++ " " ++ fmtNum pp.h ++ " re f\n"
   | none => "") ++
    String.join (pp.els.map (emitElement fonts images pp.h))

/-- Character standing for one output byte of value `n % 256`. -/
def byteChar (n : Nat) : Char := Char.ofNat (n % 256)

/-- Adler-32 step over one byte. -/
def adlerStep (p : Nat × Nat) (c : Char) : Nat × Nat :=
  ((p.1 + c.toNat % 256) % 65521, (p.2 + (p.1 + c.toNat % 256) % 65521) % 65521)

/-- Adler-32 checksum of a byte run, big-endian. -/
def adler32 (s : List Char) : List Char :=
  [byteChar ((s.foldl adlerStep (1, 0)).2 / 256), byteChar ((s.foldl adlerStep (1, 0)).2 % 256),
   byteChar ((s.foldl adlerStep (1, 0)).1 / 256), byteChar ((s.foldl adlerStep (1, 0)).1 % 256)]

/-- Deflate stored blocks (BTYPE 00) covering a byte run; the first argument
is fuel (any value at least the chunk count covers the whole run). -/
def storedGo : Nat → List Char → List Char
  | 0, s =>
    byteChar 1 :: byteChar (s.length % 256) :: byteChar (s.length / 256) ::
      byteChar (255 - s.length % 256) :: byteChar (255 - s.length / 256) :: s
  | fuel + 1, s =>
    if s.length ≤ 65535 then
      byteChar 1 :: byteChar (s.length % 256) :: byteChar (s.length / 256) ::
        byteChar (255 - s.length % 256) :: byteChar (255 - s.length / 256) :: s
    else
      byteChar 0 :: byteChar 255 :: byteChar 255 :: byteChar 0 :: byteChar 0 ::
        (s.take 65535 ++ storedGo fuel (s.drop 65535))

/-- Deflate stored blocks of a byte run. -/
def storedBlocks (s : List Char) : List Char := storedGo s.length s

/-- Modelled from the spec (sections 4.8, 6): the zlib compression of a
stream body; the deflate encoder lives outside the repository checkout, so
the model emits the conforming zlib framing in stored mode (2-byte header,
stored blocks, Adler-32 trailer). -/
def zlibStored (s : String) : String :=
  ⟨byteChar 120 :: byteChar 1 :: (storedBlocks s.data ++ adler32 s.data)⟩

/-- Stream object body: dictionary with extra entries, `/Length`, an optional
`/Filter /FlateDecode`, and the (possibly compressed) data (spec 4.1, 4.8). -/
def streamBody (compress : Bool) (extra : String) (data : String) : String :=
  if compress then
    "<< " ++ extra ++ "/Length " ++ natStr (zlibStored data).length ++
      " /Filter " ++ "/FlateDecode" ++ " >>\nstream\n" ++ zlibStored data ++ "\nendstream"
  else
    "<< " ++ extra ++ "/Length " ++ natStr data.length ++ " >>\nstream\n" ++ data ++
      "\nendstream"

/-- Kind of an emitted indirect object. -/
inductive ObjKind where
  | fontDict
  | fontFile
  | imageXObj
  | formXObj
  | content
  | page
  | pagesNode
  | info
  | catalog
deriving DecidableEq

/-- An emitted indirect object: number, kind, body text, and whether its
stream body was flate-compressed. -/
structure PdfObj where
  num : Nat
  kind : ObjKind
  body : String
  flate : Bool := false
deriving DecidableEq

/-- Font program bytes of a resource; reading a `path` resource from disk is
external collaborator work (spec section 1), so only the `bytes` form carries
data in the model. -/
def fontData (f : FontRes) : String := f.data.getD ""

/-- Image bytes of a resource, in the same fashion. -/
def imageData (f : ImageRes) : String := f.data.getD ""

/-- Modelled from the spec (section 3): the PostScript name extracted by the
missing font parser, modelled as a deterministic function of the program. -/
def psNameOf (f : FontRes) : String := "Font" ++ natStr (fontData f).length

/-- Fold a byte run into a number below `26^6`. -/
def hashStr (s : String) : Nat :=
  s.data.foldl (fun a c => (a * 31 + c.toNat) % 308915776) 7

/-- Six uppercase letters derived from a hash (little-endian base 26). -/
def tagLetters : Nat → Nat → List Char
  | 0, _ => []
  | k + 1, h => Char.ofNat (65 + h % 26) :: tagLetters k (h / 26)

/-- Modelled from the spec (sections 4.2, 9): the six-letter subset tag,
derived deterministically from the subset content so that identical subsets
yield identical tags. -/
def subsetTag (f : FontRes) : String :=
  ⟨tagLetters 6 (hashStr (fontData f ++ psNameOf f))⟩

/-- Composite `/Type0` font dictionary object (spec section 4.2); the
`/CIDFontType2` descendant chain of the native core is abbreviated to a
direct `/FontFile2` reference, which no verified claim inspects. -/
def fontDictObj (num fileNum : Nat) (f : FontRes) : PdfObj :=
  { num := num, kind := .fontDict,
    body := "<< /Type /Font /Subtype /Type0 /BaseFont /" ++ subsetTag f ++ "+" ++ psNameOf f ++
      " /Encoding /Identity-H /FontFile2 " ++ natStr fileNum ++ " 0 R >>" }

/-- Embedded font program stream object. -/
def fontFileObj (num : Nat) (compress : Bool) (f : FontRes) : PdfObj :=
  { num := num, kind := .fontFile, body := streamBody compress "" (fontData f),
    flate := compress }

/-- Vector test: classification by content (spec section 3), an SVG marker in
the data makes the resource a vector image. -/
def isVector (data : String) : Bool := decide (chs "<svg" <:+: data.data)

/-- Image XObject (raster) or Form XObject (vector) for a resource (spec
sections 4.5, 6); the JPEG re-encoder and SVG renderer live in the missing
native core, so the stream carries the resource bytes and nominal bounds. -/
def imageObj (num : Nat) (compress : Bool) (f : ImageRes) : PdfObj :=
  if isVector (imageData f) then
    { num := num, kind := .formXObj,
      body := streamBody compress "/Type /XObject /Subtype /Form /BBox [0 0 100 100] "
        (imageData f),
      flate := compress }
  else
    { num := num, kind := .imageXObj,
      body := streamBody compress
        ("/Type /XObject /Subtype /Image /Width " ++ natStr (imageData f).length ++
          " /Height " ++ natStr (imageData f).length ++
          " /ColorSpace /DeviceRGB /BitsPerComponent 8 /Filter2 /DCTDecode ")
        (imageData f),
      flate := compress }

/-- Font entries of the shared resource dictionary: `/F<i>` names. -/
def fontRefs (nF : Nat) : String :=
  String.join ((List.range nF).map (fun i => "/F" ++ natStr i ++ " " ++ natStr (2 * i + 1) ++ " 0 R "))

/-- Image entries of the shared resource dictionary: `/Im<i>` names. -/
def imageRefs (nF nI : Nat) : String :=
  String.join ((List.range nI).map (fun i => "/Im" ++ natStr i ++ " " ++ natStr (2 * nF + i + 1) ++ " 0 R "))

/-- Per-page resource dictionary referencing the global font and XObject
tables (spec sections 4.8, 2). -/
def resDict (nF nI : Nat) : String :=
  "<< /Font << " ++ fontRefs nF ++ ">> /XObject << " ++ imageRefs nF nI ++ ">> >>"

/-- Content stream object of one page. -/
def contentObj (num : Nat) (compress : Bool) (fonts : List (String × FontRes))
    (images : List (String × ImageRes)) (pp : PPage) : PdfObj :=
  { num := num, kind := .content, body := streamBody compress "" (emitPage fonts images pp),
    flate := compress }

/-- Page object: `/MediaBox [0 0 W H]` with the supplied dimensions,
resources and content reference (spec section 4.8). -/
def pageObj (num contentNum pagesNum nF nI : Nat) (pp : PPage) : PdfObj :=
  { num := num, kind := .page,
    body := "<< " ++ "/Type /Page" ++ " /Parent " ++ natStr pagesNum ++ " 0 R " ++
      ("/MediaBox [0 0 " ++ fmtNum pp.w ++ " " ++ fmtNum pp.h ++ "]") ++
      " /Resources " ++ resDict nF nI ++
      " /Contents " ++ natStr contentNum ++ " 0 R >>" }

/-- The single page-tree node with `/Kids` and `/Count` (spec section 4.8). -/
def pagesNodeObj (num base nP : Nat) : PdfObj :=
  { num := num, kind := .pagesNode,
    body := "<< " ++ "/Type /Pages" ++ " /Kids [" ++
      String.join ((List.range nP).map (fun j => natStr (base + 2 * j + 2) ++ " 0 R ")) ++
      "] " ++ ("/Count " ++ natStr nP) ++ " >>" }

/-- Escape for PDF literal strings: backslash before `(`, `)` and `\`. -/
def escChar (c : Char) : List Char :=
  if c = '(' ∨ c = ')' ∨ c = '\\' then ['\\', c] else [c]

/-- PDF literal string with escapes (spec section 4.1). -/
def pdfStr (s : String) : String := "(" ++ ⟨s.data.flatMap escChar⟩ ++ ")"

/-- One optional entry of the info dictionary. -/
def infoEntry (key : String) (o : Option String) : String :=
  match o with
  | some v => key ++ " " ++ pdfStr v ++ " "
  | none => ""

/-- Document information dictionary object (spec section 4.8). -/
def infoObj (num : Nat) (m : Metadata) : PdfObj :=
  { num := num, kind := .info,
    body := "<< " ++ infoEntry "/Title" m.title ++ infoEntry "/Author" m.author ++
      infoEntry "/Subject" m.subject ++ infoEntry "/Creator" m.creator ++
      infoEntry "/Producer" m.producer ++ ">>" }

/-- The document catalog object. -/
def catalogObj (num pagesNum : Nat) : PdfObj :=
  { num := num, kind := .catalog,
    body := "<< " ++ "/Type /Catalog" ++ " /Pages " ++ natStr pagesNum ++ " 0 R >>" }

/-- Font objects: a dictionary and a font-file stream per font, numbered
`2i+1` and `2i+2` in resource order. -/
def fontObjsAux (compress : Bool) : List (String × FontRes) → Nat → List PdfObj
  | [], _ => []
  | (_, f) :: fs, i =>
    fontDictObj (2 * i + 1) (2 * i + 2) f :: fontFileObj (2 * i + 2) compress f ::
      fontObjsAux compress fs (i + 1)

/-- Image objects, numbered sequentially after the font objects. -/
def imageObjsAux (compress : Bool) : List (String × ImageRes) → Nat → List PdfObj
  | [], _ => []
  | (_, f) :: fs, n => imageObj n compress f :: imageObjsAux compress fs (n + 1)

/-- Per-page objects: a content stream and a page object per page, numbered
`base+2j+1` and `base+2j+2` in page order. -/
def pageObjsAux (compress : Bool) (fonts : List (String × FontRes))
    (images : List (String × ImageRes)) (base pagesNum : Nat) :
    List PPage → Nat → List PdfObj
  | [], _ => []
  | p :: ps, j =>
    contentObj (base + 2 * j + 1) compress fonts images p ::
      pageObj (base + 2 * j + 2) (base + 2 * j + 1) pagesNum fonts.length images.length p ::
      pageObjsAux compress fonts images base pagesNum ps (j + 1)

/-- First object number after the font and image objects. -/
def baseOf (pd : PDoc) : Nat := 2 * pd.fonts.length + pd.images.length

/-- Object number of the page-tree node. -/
def pagesNumOf (pd : PDoc) : Nat := baseOf pd + 2 * pd.pages.length + 1

/-- Object number of the info dictionary, when metadata is present. -/
def infoNumOf (pd : PDoc) : Option Nat :=
  if pd.metadata.isSome then some (pagesNumOf pd + 1) else none

/-- Object number of the catalog (the last object). -/
def catalogNumOf (pd : PDoc) : Nat :=
  pagesNumOf pd + (if pd.metadata.isSome then 2 else 1)

/-- Modelled from the spec (section 4.8): all indirect objects of a parsed
document, in emission order — fonts, images, per-page pairs, the page tree,
the optional info dictionary, and the catalog. -/
def objsOf (pd : PDoc) (opts : Options) : List PdfObj :=
  fontObjsAux opts.compress pd.fonts 0 ++
    imageObjsAux opts.compress pd.images (2 * pd.fonts.length + 1) ++
    pageObjsAux opts.compress pd.fonts pd.images (baseOf pd) (pagesNumOf pd) pd.pages 0 ++
    [pagesNodeObj (pagesNumOf pd) (baseOf pd) pd.pages.length] ++
    (match pd.metadata with
     | some m => [infoObj (pagesNumOf pd + 1) m]
     | none => []) ++
    [catalogObj (catalogNumOf pd) (pagesNumOf pd)]

/-- Wrap an object body as `N 0 obj ... endobj` (spec section 4.1). -/
def serializeObj (o : PdfObj) : String :=
  natStr o.num ++ " 0 obj\n" ++ o.body ++ "\nendobj\n"

/-- File header: version line then a binary-marker comment line with four
bytes at or above `0x80` (spec section 6). -/
def headerStr : String := "%PDF-1.7\n%âãÏÓ\n"

/-- One cross-reference entry: 10-digit offset, generation, in-use flag. -/
def xrefEntry (off : Nat) : String := ⟨padZeros 10 (natStrData off)⟩ ++ " 00000 n \n"

/-- Cross-reference entries for the objects, tracking byte offsets. -/
def xrefEntries : List PdfObj → Nat → String
  | [], _ => ""
  | o :: os, off => xrefEntry off ++ xrefEntries os (off + (serializeObj o).length)

/-- Byte offset of the `xref` keyword. -/
def startXref (objs : List PdfObj) : Nat :=
  headerStr.length + (objs.map (fun o => (serializeObj o).length)).sum

/-- Cross-reference table and trailer, ending with `%%EOF` (spec 4.1). -/
def trailerStr (objs : List PdfObj) (root : Nat) (info : Option Nat) : String :=
  "xref\n0 " ++ natStr (objs.length + 1) ++ "\n0000000000 65535 f \n" ++
    xrefEntries objs headerStr.length ++
    "trailer\n<< /Size " ++ natStr (objs.length + 1) ++ " /Root " ++ natStr root ++ " 0 R" ++
    (match info with
     | some n => " /Info " ++ natStr n ++ " 0 R"
     | none => "") ++
    " >>\nstartxref\n" ++ natStr (startXref objs) ++ "\n%%EOF"

/-- Final byte sequence: header, serialized objects, xref and trailer. -/
def outputBytes (objs : List PdfObj) (root : Nat) (info : Option Nat) : List Char :=
  chs headerStr ++ (objs.map (fun o => chs (serializeObj o))).flatten ++
    chs (trailerStr objs root info)

/-- Modelled from the spec (sections 2, 6): the native entry point
`render_pdf(document, compress=...)` — validate and parse, then assemble the
object graph and serialize it; any failure aborts with an error and no bytes. -/
def render_pdf (d : Document) (opts : Options) : Except String (List Char) := do
  let pd ← parseDoc d
  .ok (outputBytes (objsOf pd opts) (catalogNumOf pd) (infoNumOf pd))

/-- Number of emitted objects of a given kind. -/
def countKind (objs : List PdfObj) (k : ObjKind) : Nat :=
  objs.countP (fun o => decide (o.kind = k))

/-- Byte length of a successful rendering (zero on error). -/
def outLen : Except String (List Char) → Nat
  | .ok l => l.length
  | .error _ => 0

/-- A minimal valid document: one empty Letter-sized page, no resources
(shape of the `minimal_doc` test fixture). -/
def docEmptyPage : Document :=
  { pages := [{ size := (612, 792) }], resources := { fonts := [] } }

/-- A document whose `pages` list is empty (shape of
`test_empty_pages_allowed`). -/
def docNoPages : Document := { pages := [], resources := { fonts := [] } }

/-- A document with a page of zero width (shape of
`test_invalid_page_size_raises`). -/
def docZeroWidth : Document :=
  { pages := [{ size := (0, 792) }], resources := { fonts := [] } }

/-- A document whose only element has the unrecognized kind `circle` (shape
of `test_unknown_element_type_raises`). -/
def docCircle : Document :=
  { pages := [{ size := (612, 792),
                elements := [{ type := "circle", x := some 100, y := some 100 }] }],
    resources := { fonts := [] } }

/-- A document with two faulty elements in input order: a `rect` missing its
required `w` and `h` fields, followed by an element of unknown kind
`circle`. -/
def docRectThenCircle : Document :=
  { pages := [{ size := (612, 792),
                elements := [{ type := "rect", x := some 72, y := some 72 },
                             { type := "circle", x := some 100, y := some 100 }] }],
    resources := { fonts := [] } }

/-- A document using the `barcode` kind tag the demo scripts use
(`make_barcode_page` in `src/scripts/demo_pdf.py`) in place of the spec's
`barcode128`. -/
def docBarcodeTag : Document :=
  { pages := [{ size := (612, 792),
                elements := [{ type := "barcode", x := some 56, y := some 150,
                               w := some 200, h := some 50,
                               value := some "ABC-12345" }] }],
    resources := { fonts := [] } }

/-! Infrastructure lemmas about the validation combinators. -/

theorem exOk_iff {α : Type} (e : Except String α) : exOk e = true ↔ ∃ a, e = .ok a := by
  cases e <;> simp [exOk]

theorem exOk_false_iff {α : Type} (e : Except String α) :
    exOk e = false ↔ ∃ m, e = .error m := by
  cases e <;> simp [exOk]

theorem parseList_nil {α β : Type} (f : α → Except String β) : parseList f [] = .ok [] := rfl

theorem parseList_cons {α β : Type} (f : α → Except String β) (x : α) (xs : List α) :
    parseList f (x :: xs) =
      (f x).bind (fun y => (parseList f xs).bind (fun ys => .ok (y :: ys))) := rfl

theorem parseList_ok_iff {α β : Type} (f : α → Except String β) :
    ∀ (xs : List α) (ys : List β),
      parseList f xs = .ok ys ↔ List.Forall₂ (fun x y => f x = .ok y) xs ys := by
  intro xs
  induction xs with
  | nil =>
    intro ys
    simp [parseList_nil, List.forall₂_nil_left_iff, eq_comm]
  | cons x xs ih =>
    intro ys
    cases hfx : f x with
    | error e =>
      simp [parseList_cons, hfx, Except.bind, List.forall₂_cons_left_iff]
    | ok y =>
      cases hpl : parseList f xs with
      | error e =>
        simp [parseList_cons, hfx, hpl, Except.bind, List.forall₂_cons_left_iff, ← ih]
      | ok l =>
        simp [parseList_cons, hfx, hpl, Except.bind, List.forall₂_cons_left_iff, ← ih]
        exact eq_comm

theorem forall2_exists_of_mem {α β : Type} {R : α → β → Prop} :
    ∀ {xs : List α} {ys : List β}, List.Forall₂ R xs ys → ∀ {x : α}, x ∈ xs →
      ∃ y, y ∈ ys ∧ R x y := by
  intro xs ys h
  induction h with
  | nil => intro x hx; cases hx
  | @cons a b l l' hab _ ih =>
    intro x hx
    rcases List.mem_cons.mp hx with rfl | hx
    · exact ⟨b, List.mem_cons_self b l', hab⟩
    · obtain ⟨y, hy, hres⟩ := ih hx
      exact ⟨y, List.mem_cons_of_mem b hy, hres⟩

theorem parseList_error_of_split {α β : Type} (f : α → Except String β) :
    ∀ (as : List α) (b : α) (bs : List α) (m : String),
      (∀ a ∈ as, exOk (f a) = true) → f b = .error m →
      parseList f (as ++ b :: bs) = .error m := by
  intro as
  induction as with
  | nil =>
    intro b bs m _ hb
    simp [parseList_cons, hb, Except.bind]
  | cons a as ih =>
    intro b bs m hok hb
    obtain ⟨y, hy⟩ := (exOk_iff (f a)).mp (hok a (List.mem_cons_self a as))
    have hrec := ih b bs m (fun a' ha' => hok a' (List.mem_cons_of_mem a ha')) hb
    simp [parseList_cons, hy, hrec, Except.bind]

theorem parseList_all_ok {α β : Type} {f : α → Except String β} {xs : List α} {ys : List β}
    (h : parseList f xs = .ok ys) : ∀ x ∈ xs, ∃ y, y ∈ ys ∧ f x = .ok y := by
  intro x hx
  exact forall2_exists_of_mem ((parseList_ok_iff f xs ys).mp h) hx

theorem parseDoc_def (d : Document) :
    parseDoc d =
      (parseList (fun p : String × FontRes => checkFontRes p.2) d.resources.fonts).bind
        (fun _ =>
          (parseList (fun p : String × ImageRes => checkImageRes p.2) d.resources.images).bind
            (fun _ =>
              (parseList (parsePage d.resources) d.pages).bind (fun ps =>
                .ok { metadata := d.metadata, fonts := d.resources.fonts,
                      images := d.resources.images, pages := ps }))) := rfl

theorem parseDoc_ok_elim {d : Document} {pd : PDoc} (h : parseDoc d = .ok pd) :
    pd.metadata = d.metadata ∧ pd.fonts = d.resources.fonts ∧
      pd.images = d.resources.images ∧
      List.Forall₂ (fun p pp => parsePage d.resources p = .ok pp) d.pages pd.pages := by
  rw [parseDoc_def] at h
  cases h1 : parseList (fun p : String × FontRes => checkFontRes p.2) d.resources.fonts with
  | error e => rw [h1] at h; simp [Except.bind] at h
  | ok u =>
    rw [h1] at h
    cases h2 : parseList (fun p : String × ImageRes => checkImageRes p.2) d.resources.images with
    | error e => rw [h2] at h; simp [Except.bind] at h
    | ok v =>
      rw [h2] at h
      cases h3 : parseList (parsePage d.resources) d.pages with
      | error e => rw [h3] at h; simp [Except.bind] at h
      | ok ps =>
        rw [h3] at h
        simp only [Except.bind, Except.ok.injEq] at h
        subst h
        exact ⟨rfl, rfl, rfl, (parseList_ok_iff _ _ _).mp h3⟩

theorem parseDoc_error_of_pages {d : Document} {m : String}
    (hf : exOk (parseList (fun p : String × FontRes => checkFontRes p.2) d.resources.fonts) = true)
    (hi : exOk (parseList (fun p : String × ImageRes => checkImageRes p.2) d.resources.images) = true)
    (hp : parseList (parsePage d.resources) d.pages = .error m) :
    parseDoc d = .error m := by
  obtain ⟨u, hu⟩ := (exOk_iff _).mp hf
  obtain ⟨v, hv⟩ := (exOk_iff _).mp hi
  rw [parseDoc_def, hu, hp]
  simp [Except.bind, hv]

theorem parsePage_def (res : Resources) (p : Page) :
    parsePage res p =
      if 0 < p.size.1 ∧ 0 < p.size.2 then
        (checkColorOpt p.background).bind (fun _ =>
          (parseList (parseElement res) p.elements).bind (fun els =>
            .ok { w := p.size.1, h := p.size.2, background := p.background, els := els }))
      else
        .error ("Invalid page dimensions: " ++ fmtNum p.size.1 ++ " x " ++ fmtNum p.size.2) := rfl

theorem parsePage_ok_elim {res : Resources} {p : Page} {pp : PPage}
    (h : parsePage res p = .ok pp) :
    (0 < p.size.1 ∧ 0 < p.size.2) ∧ pp.w = p.size.1 ∧ pp.h = p.size.2 ∧
      List.Forall₂ (fun e el => parseElement res e = .ok el) p.elements pp.els := by
  rw [parsePage_def] at h
  split at h
  case isTrue hpos =>
    cases hc : checkColorOpt p.background with
    | error e => rw [hc] at h; simp [Except.bind] at h
    | ok u =>
      rw [hc] at h
      cases hels : parseList (parseElement res) p.elements with
      | error e => rw [hels] at h; simp [Except.bind] at h
      | ok els =>
        rw [hels] at h
        simp only [Except.bind, Except.ok.injEq] at h
        subst h
        exact ⟨hpos, rfl, rfl, (parseList_ok_iff _ _ _).mp hels⟩
  case isFalse => simp at h

theorem parsePage_error_of_size {res : Resources} {p : Page}
    (h : ¬(0 < p.size.1 ∧ 0 < p.size.2)) :
    parsePage res p =
      .error ("Invalid page dimensions: " ++ fmtNum p.size.1 ++ " x " ++ fmtNum p.size.2) := by
  rw [parsePage_def, if_neg h]

theorem parsePage_error_of_elems {res : Resources} {p : Page} {m : String}
    (hpos : 0 < p.size.1 ∧ 0 < p.size.2)
    (hbg : exOk (checkColorOpt p.background) = true)
    (hels : parseList (parseElement res) p.elements = .error m) :
    parsePage res p = .error m := by
  obtain ⟨u, hu⟩ := (exOk_iff _).mp hbg
  rw [parsePage_def, if_pos hpos, hu, hels]
  rfl

theorem parseElement_unknown {res : Resources} {e : RawElement} (hk : e.type ∉ knownKinds) :
    parseElement res e = .error ("Unknown element type: " ++ e.type) := by
  have h1 : ¬e.type = "text" := fun h => hk (by simp [knownKinds, h])
  have h2 : ¬e.type = "textbox" := fun h => hk (by simp [knownKinds, h])
  have h3 : ¬e.type = "rect" := fun h => hk (by simp [knownKinds, h])
  have h4 : ¬e.type = "line" := fun h => hk (by simp [knownKinds, h])
  have h5 : ¬e.type = "image" := fun h => hk (by simp [knownKinds, h])
  have h6 : ¬e.type = "barcode128" := fun h => hk (by simp [knownKinds, h])
  have h7 : ¬e.type = "qrcode" := fun h => hk (by simp [knownKinds, h])
  unfold parseElement
  rw [if_neg h1, if_neg h2, if_neg h3, if_neg h4, if_neg h5, if_neg h6, if_neg h7]

theorem parseElement_ok_kind {res : Resources} {e : RawElement} {el : Element}
    (h : parseElement res e = .ok el) : e.type ∈ knownKinds := by
  by_contra hk
  rw [parseElement_unknown hk] at h
  simp at h

theorem render_pdf_def (d : Document) (opts : Options) :
    render_pdf d opts =
      (parseDoc d).bind (fun pd =>
        .ok (outputBytes (objsOf pd opts) (catalogNumOf pd) (infoNumOf pd))) := rfl

theorem render_error_of_parse {d : Document} {opts : Options} {m : String}
    (h : parseDoc d = .error m) : render_pdf d opts = .error m := by
  rw [render_pdf_def, h]
  rfl

theorem render_ok_of_valid {d : Document} (hv : validDoc d) (opts : Options) :
    ∃ pd, parseDoc d = .ok pd ∧
      render_pdf d opts = .ok (outputBytes (objsOf pd opts) (catalogNumOf pd) (infoNumOf pd)) := by
  obtain ⟨pd, hpd⟩ := (exOk_iff _).mp hv
  refine ⟨pd, hpd, ?_⟩
  rw [render_pdf_def, hpd]
  rfl

theorem parse_ok_of_render_ok {d : Document} {opts : Options} {out : List Char}
    (h : render_pdf d opts = .ok out) : ∃ pd, parseDoc d = .ok pd := by
  rw [render_pdf_def] at h
  cases hpd : parseDoc d with
  | error m => rw [hpd] at h; simp [Except.bind] at h
  | ok pd => exact ⟨pd, rfl⟩

/-! Infrastructure lemmas about the serialized output. -/

theorem infix_ext {l m : List Char} (pre post : List Char) (h : l <:+: m) :
    l <:+: pre ++ m ++ post := by
  obtain ⟨s, t, rfl⟩ := h
  exact ⟨pre ++ s, t ++ post, by simp⟩

theorem body_infix_serialize {X : List Char} (o : PdfObj) (h : X <:+: chs o.body) :
    X <:+: chs (serializeObj o) := by
  have h2 := infix_ext (chs (natStr o.num) ++ chs " 0 obj\n") (chs "\nendobj\n") h
  simpa [serializeObj, chs, List.append_assoc] using h2

theorem infix_output_of_mem {X : List Char} {o : PdfObj} {objs : List PdfObj}
    {root : Nat} {info : Option Nat} (ho : o ∈ objs) (h : X <:+: chs (serializeObj o)) :
    X <:+: outputBytes objs root info := by
  have h1 : chs (serializeObj o) ∈ objs.map (fun o => chs (serializeObj o)) :=
    List.mem_map_of_mem _ ho
  have h2 := h.trans (List.infix_of_mem_flatten h1)
  obtain ⟨s, t, hst⟩ := h2
  refine ⟨chs headerStr ++ s, t ++ chs (trailerStr objs root info), ?_⟩
  simp [outputBytes, ← hst, List.append_assoc]

theorem body_infix_output {X : List Char} {o : PdfObj} {objs : List PdfObj}
    {root : Nat} {info : Option Nat} (ho : o ∈ objs) (h : X <:+: chs o.body) :
    X <:+: outputBytes objs root info :=
  infix_output_of_mem ho (body_infix_serialize o h)

theorem output_starts (objs : List PdfObj) (root : Nat) (info : Option Nat) :
    chs "%PDF-1." <+: outputBytes objs root info := by
  have h1 : chs "%PDF-1." <+: chs headerStr := by decide
  exact h1.trans ((List.prefix_append _ _).trans (List.prefix_append _ _))

theorem trailer_ends (objs : List PdfObj) (root : Nat) (info : Option Nat) :
    chs "%%EOF" <:+ chs (trailerStr objs root info) := by
  have h1 : chs "%%EOF" <:+ chs "\n%%EOF" := by decide
  have h2 : chs (trailerStr objs root info) =
      chs ("xref\n0 " ++ natStr (objs.length + 1) ++ "\n0000000000 65535 f \n" ++
        xrefEntries objs headerStr.length ++
        "trailer\n<< /Size " ++ natStr (objs.length + 1) ++ " /Root " ++ natStr root ++ " 0 R" ++
        (match info with
         | some n => " /Info " ++ natStr n ++ " 0 R"
         | none => "") ++
        " >>\nstartxref\n" ++ natStr (startXref objs)) ++ chs "\n%%EOF" := by
    simp [trailerStr, chs]
  rw [h2]
  exact h1.trans (List.suffix_append _ _)

theorem output_ends (objs : List PdfObj) (root : Nat) (info : Option Nat) :
    chs "%%EOF" <:+ outputBytes objs root info := by
  have h1 := trailer_ends objs root info
  exact h1.trans (List.suffix_append _ _)

/-! Classification of the emitted objects. -/

theorem countKind_nil (k : ObjKind) : countKind [] k = 0 := rfl

theorem countKind_cons (o : PdfObj) (objs : List PdfObj) (k : ObjKind) :
    countKind (o :: objs) k = countKind objs k + (if o.kind = k then 1 else 0) := by
  simp [countKind, List.countP_cons]

theorem countKind_append (l₁ l₂ : List PdfObj) (k : ObjKind) :
    countKind (l₁ ++ l₂) k = countKind l₁ k + countKind l₂ k := by
  simp [countKind]

theorem countKind_eq_zero {objs : List PdfObj} {k : ObjKind}
    (h : ∀ o ∈ objs, o.kind ≠ k) : countKind objs k = 0 := by
  simp only [countKind, List.countP_eq_zero]
  intro o ho
  simp [h o ho]

theorem fontObjsAux_spec (c : Bool) :
    ∀ (fs : List (String × FontRes)) (i : Nat), ∀ o ∈ fontObjsAux c fs i,
      (o.kind = .fontDict ∧ o.flate = false) ∨ (o.kind = .fontFile ∧ o.flate = c) := by
  intro fs
  induction fs with
  | nil => intro i o ho; simp [fontObjsAux] at ho
  | cons p fs ih =>
    intro i o ho
    obtain ⟨a, f⟩ := p
    simp only [fontObjsAux, List.mem_cons] at ho
    rcases ho with rfl | rfl | ho
    · exact Or.inl ⟨rfl, rfl⟩
    · exact Or.inr ⟨rfl, rfl⟩
    · exact ih (i + 1) o ho

theorem imageObj_flate (n : Nat) (c : Bool) (f : ImageRes) : (imageObj n c f).flate = c := by
  unfold imageObj
  split <;> rfl

theorem imageObj_kind (n : Nat) (c : Bool) (f : ImageRes) :
    (imageObj n c f).kind = .imageXObj ∨ (imageObj n c f).kind = .formXObj := by
  unfold imageObj
  split
  · exact Or.inr rfl
  · exact Or.inl rfl

theorem imageObjsAux_spec (c : Bool) :
    ∀ (fs : List (String × ImageRes)) (n : Nat), ∀ o ∈ imageObjsAux c fs n,
      ((o.kind = .imageXObj ∨ o.kind = .formXObj) ∧ o.flate = c) := by
  intro fs
  induction fs with
  | nil => intro n o ho; simp [imageObjsAux] at ho
  | cons p fs ih =>
    intro n o ho
    obtain ⟨a, f⟩ := p
    simp only [imageObjsAux, List.mem_cons] at ho
    rcases ho with rfl | ho
    · exact ⟨imageObj_kind _ _ _, imageObj_flate _ _ _⟩
    · exact ih (n + 1) o ho

theorem pageObjsAux_spec (c : Bool) (fonts : List (String × FontRes))
    (images : List (String × ImageRes)) (base pnum : Nat) :
    ∀ (ps : List PPage) (j : Nat), ∀ o ∈ pageObjsAux c fonts images base pnum ps j,
      (o.kind = .content ∧ o.flate = c) ∨ (o.kind = .page ∧ o.flate = false) := by
  intro ps
  induction ps with
  | nil => intro j o ho; simp [pageObjsAux] at ho
  | cons p ps ih =>
    intro j o ho
    simp only [pageObjsAux, List.mem_cons] at ho
    rcases ho with rfl | rfl | ho
    · exact Or.inl ⟨rfl, rfl⟩
    · exact Or.inr ⟨rfl, rfl⟩
    · exact ih (j + 1) o ho

theorem pageObjsAux_count_page (c : Bool) (fonts : List (String × FontRes))
    (images : List (String × ImageRes)) (base pnum : Nat) :
    ∀ (ps : List PPage) (j : Nat),
      countKind (pageObjsAux c fonts images base pnum ps j) .page = ps.length := by
  intro ps
  induction ps with
  | nil => intro j; rfl
  | cons p ps ih =>
    intro j
    simp only [pageObjsAux, countKind_cons, ih (j + 1), List.length_cons]
    simp [contentObj, pageObj]

theorem countKind_fontObjsAux (c : Bool) (fs : List (String × FontRes)) (i : Nat)
    (k : ObjKind) (h1 : k ≠ ObjKind.fontDict) (h2 : k ≠ ObjKind.fontFile) :
    countKind (fontObjsAux c fs i) k = 0 := by
  refine countKind_eq_zero (fun o ho => ?_)
  rcases fontObjsAux_spec c fs i o ho with ⟨hh, _⟩ | ⟨hh, _⟩ <;> rw [hh]
  · exact Ne.symm h1
  · exact Ne.symm h2

theorem countKind_imageObjsAux (c : Bool) (fs : List (String × ImageRes)) (n : Nat)
    (k : ObjKind) (h1 : k ≠ ObjKind.imageXObj) (h2 : k ≠ ObjKind.formXObj) :
    countKind (imageObjsAux c fs n) k = 0 := by
  refine countKind_eq_zero (fun o ho => ?_)
  rcases imageObjsAux_spec c fs n o ho with ⟨hh | hh, _⟩ <;> rw [hh]
  · exact Ne.symm h1
  · exact Ne.symm h2

theorem countKind_pageObjsAux (c : Bool) (fonts : List (String × FontRes))
    (images : List (String × ImageRes)) (base pnum : Nat) (ps : List PPage) (j : Nat)
    (k : ObjKind) (h1 : k ≠ ObjKind.content) (h2 : k ≠ ObjKind.page) :
    countKind (pageObjsAux c fonts images base pnum ps j) k = 0 := by
  refine countKind_eq_zero (fun o ho => ?_)
  rcases pageObjsAux_spec c fonts images base pnum ps j o ho with ⟨hh, _⟩ | ⟨hh, _⟩ <;> rw [hh]
  · exact Ne.symm h1
  · exact Ne.symm h2

theorem countKind_metaObjs (pd : PDoc) (k : ObjKind) (h : k ≠ ObjKind.info) :
    countKind
      (match pd.metadata with
       | some m => [infoObj (pagesNumOf pd + 1) m]
       | none => []) k = 0 := by
  cases pd.metadata with
  | none => rfl
  | some m =>
    simp only [countKind_cons, countKind_nil, infoObj]
    simp [Ne.symm h]

theorem countKind_objsOf_catalog (pd : PDoc) (opts : Options) :
    countKind (objsOf pd opts) .catalog = 1 := by
  simp only [objsOf, countKind_append]
  rw [countKind_fontObjsAux _ _ _ _ (by simp) (by simp),
    countKind_imageObjsAux _ _ _ _ (by simp) (by simp),
    countKind_pageObjsAux _ _ _ _ _ _ _ _ (by simp) (by simp),
    countKind_metaObjs _ _ (by simp)]
  simp [countKind_cons, countKind_nil, pagesNodeObj, catalogObj]

theorem countKind_objsOf_pagesNode (pd : PDoc) (opts : Options) :
    countKind (objsOf pd opts) .pagesNode = 1 := by
  simp only [objsOf, countKind_append]
  rw [countKind_fontObjsAux _ _ _ _ (by simp) (by simp),
    countKind_imageObjsAux _ _ _ _ (by simp) (by simp),
    countKind_pageObjsAux _ _ _ _ _ _ _ _ (by simp) (by simp),
    countKind_metaObjs _ _ (by simp)]
  simp [countKind_cons, countKind_nil, pagesNodeObj, catalogObj]

theorem countKind_objsOf_page (pd : PDoc) (opts : Options) :
    countKind (objsOf pd opts) .page = pd.pages.length := by
  simp only [objsOf, countKind_append]
  rw [countKind_fontObjsAux _ _ _ _ (by simp) (by simp),
    countKind_imageObjsAux _ _ _ _ (by simp) (by simp),
    pageObjsAux_count_page,
    countKind_metaObjs _ _ (by simp)]
  simp [countKind_cons, countKind_nil, pagesNodeObj, catalogObj]

theorem objsOf_spec {pd : PDoc} {opts : Options} :
    ∀ o ∈ objsOf pd opts,
      (o.kind = .fontDict ∧ o.flate = false) ∨ (o.kind = .fontFile ∧ o.flate = opts.compress) ∨
        ((o.kind = .imageXObj ∨ o.kind = .formXObj) ∧ o.flate = opts.compress) ∨
        (o.kind = .content ∧ o.flate = opts.compress) ∨ (o.kind = .page ∧ o.flate = false) ∨
        (o.kind = .pagesNode ∧ o.flate = false) ∨ (o.kind = .info ∧ o.flate = false) ∨
        (o.kind = .catalog ∧ o.flate = false) := by
  intro o ho
  simp only [objsOf, List.mem_append] at ho
  rcases ho with ((((hf | hi) | hp) | hn) | hm) | hc
  · exact (fontObjsAux_spec _ _ _ o hf).imp id Or.inl
  · exact Or.inr (Or.inr (Or.inl (imageObjsAux_spec _ _ _ o hi)))
  · rcases pageObjsAux_spec _ _ _ _ _ _ _ o hp with h | h
    · exact Or.inr (Or.inr (Or.inr (Or.inl h)))
    · exact Or.inr (Or.inr (Or.inr (Or.inr (Or.inl h))))
  · rcases List.mem_singleton.mp hn with rfl
    exact Or.inr (Or.inr (Or.inr (Or.inr (Or.inr (Or.inl ⟨rfl, rfl⟩)))))
  · cases hmeta : pd.metadata with
    | none => rw [hmeta] at hm; simp at hm
    | some m =>
      rw [hmeta] at hm
      rcases List.mem_singleton.mp hm with rfl
      exact Or.inr (Or.inr (Or.inr (Or.inr (Or.inr (Or.inr (Or.inl ⟨rfl, rfl⟩))))))
  · rcases List.mem_singleton.mp hc with rfl
    exact Or.inr (Or.inr (Or.inr (Or.inr (Or.inr (Or.inr (Or.inr ⟨rfl, rfl⟩))))))

theorem objsOf_flate_uncompressed {pd : PDoc} :
    ∀ o ∈ objsOf pd { compress := false }, o.flate = false := by
  intro o ho
  rcases objsOf_spec o ho with h | h | h | h | h | h | h | h <;> exact h.2

theorem objsOf_flate_compressed {pd : PDoc} :
    ∀ o ∈ objsOf pd { compress := true },
      (o.kind = .content ∨ o.kind = .fontFile ∨ o.kind = .imageXObj ∨ o.kind = .formXObj) →
        o.flate = true := by
  intro o ho hk
  rcases objsOf_spec o ho with h | h | h | h | h | h | h | h <;>
    first
      | exact h.2
      | (rcases hk with hk | hk | hk | hk <;> rw [h.1] at hk <;> simp at hk)

theorem infix_sandwich (pre x post : List Char) : x <:+: pre ++ x ++ post := ⟨pre, post, rfl⟩

theorem streamBody_mark (extra data : String) :
    chs "/FlateDecode" <:+: chs (streamBody true extra data) := by
  have h := infix_sandwich
    (chs ("<< " ++ extra ++ "/Length " ++ natStr (zlibStored data).length ++ " /Filter "))
    (chs "/FlateDecode")
    (chs (" >>\nstream\n" ++ zlibStored data ++ "\nendstream"))
  simpa [streamBody, chs, List.append_assoc] using h

theorem content_mem_objsOf {pd : PDoc} {p : PPage} {ps' : List PPage}
    (h : pd.pages = p :: ps') (opts : Options) :
    contentObj (baseOf pd + 1) opts.compress pd.fonts pd.images p ∈ objsOf pd opts := by
  have h1 : contentObj (baseOf pd + 2 * 0 + 1) opts.compress pd.fonts pd.images p ∈
      pageObjsAux opts.compress pd.fonts pd.images (baseOf pd) (pagesNumOf pd) pd.pages 0 := by
    rw [h]
    exact List.mem_cons_self _ _
  simp only [Nat.mul_zero, Nat.add_zero] at h1
  simp only [objsOf, List.mem_append]
  exact Or.inl (Or.inl (Or.inl (Or.inr h1)))

theorem pagesNode_mem_objsOf (pd : PDoc) (opts : Options) :
    pagesNodeObj (pagesNumOf pd) (baseOf pd) pd.pages.length ∈ objsOf pd opts := by
  simp only [objsOf, List.mem_append]
  exact Or.inl (Or.inl (Or.inr (List.mem_singleton.mpr rfl)))

theorem catalog_mem_objsOf (pd : PDoc) (opts : Options) :
    catalogObj (catalogNumOf pd) (pagesNumOf pd) ∈ objsOf pd opts := by
  simp only [objsOf, List.mem_append]
  exact Or.inr (List.mem_singleton.mpr rfl)

theorem pageObj_mem_pageObjsAux (c : Bool) (fonts : List (String × FontRes))
    (images : List (String × ImageRes)) (base pnum : Nat) :
    ∀ (ps : List PPage) (j : Nat), ∀ pp ∈ ps,
      ∃ num cnum, pageObj num cnum pnum fonts.length images.length pp ∈
        pageObjsAux c fonts images base pnum ps j := by
  intro ps
  induction ps with
  | nil => intro j pp hpp; cases hpp
  | cons p ps ih =>
    intro j pp hpp
    rcases List.mem_cons.mp hpp with rfl | hpp
    · exact ⟨base + 2 * j + 2, base + 2 * j + 1,
        List.mem_cons_of_mem _ (List.mem_cons_self _ _)⟩
    · obtain ⟨num, cnum, hm⟩ := ih (j + 1) pp hpp
      exact ⟨num, cnum, List.mem_cons_of_mem _ (List.mem_cons_of_mem _ hm)⟩

theorem pageObj_mem_objsOf {pd : PDoc} (opts : Options) {pp : PPage} (h : pp ∈ pd.pages) :
    ∃ num cnum,
      pageObj num cnum (pagesNumOf pd) pd.fonts.length pd.images.length pp ∈ objsOf pd opts := by
  obtain ⟨num, cnum, hm⟩ :=
    pageObj_mem_pageObjsAux opts.compress pd.fonts pd.images (baseOf pd) (pagesNumOf pd)
      pd.pages 0 pp h
  refine ⟨num, cnum, ?_⟩
  simp only [objsOf, List.mem_append]
  exact Or.inl (Or.inl (Or.inl (Or.inr hm)))

theorem mediaBox_infix_pageObj (num cnum pnum nF nI : Nat) (pp : PPage) :
    chs ("/MediaBox [0 0 " ++ fmtNum pp.w ++ " " ++ fmtNum pp.h ++ "]") <:+:
      chs (pageObj num cnum pnum nF nI pp).body := by
  have h := infix_sandwich (chs ("<< " ++ "/Type /Page" ++ " /Parent " ++ natStr pnum ++ " 0 R "))
    (chs ("/MediaBox [0 0 " ++ fmtNum pp.w ++ " " ++ fmtNum pp.h ++ "]"))
    (chs (" /Resources " ++ resDict nF nI ++ " /Contents " ++ natStr cnum ++ " 0 R >>"))
  simpa [pageObj, chs, List.append_assoc] using h

theorem count_infix_pagesNode (num base nP : Nat) :
    chs ("/Count " ++ natStr nP) <:+: chs (pagesNodeObj num base nP).body := by
  have h := infix_sandwich
    (chs ("<< " ++ "/Type /Pages" ++ " /Kids [" ++
      String.join ((List.range nP).map (fun j => natStr (base + 2 * j + 2) ++ " 0 R ")) ++ "] "))
    (chs ("/Count " ++ natStr nP))
    (chs " >>")
  simpa [pagesNodeObj, chs, List.append_assoc] using h

theorem catalog_mark_in_body (num pagesNum : Nat) :
    chs "/Type /Catalog" <:+: chs (catalogObj num pagesNum).body := by
  have h := infix_sandwich (chs "<< ") (chs "/Type /Catalog")
    (chs (" /Pages " ++ natStr pagesNum ++ " 0 R >>"))
  simpa [catalogObj, chs, List.append_assoc] using h

theorem pagesNode_mark_in_body (num base nP : Nat) :
    chs "/Type /Pages" <:+: chs (pagesNodeObj num base nP).body := by
  have h := infix_sandwich (chs "<< ") (chs "/Type /Pages")
    (chs (" /Kids [" ++
      String.join ((List.range nP).map (fun j => natStr (base + 2 * j + 2) ++ " 0 R ")) ++
      "] " ++ ("/Count " ++ natStr nP) ++ " >>"))
  simpa [pagesNodeObj, chs, List.append_assoc] using h

/-! Digit strings. -/

theorem natStrGo_chars :
    ∀ (fuel n : Nat) (acc : List Char), ∀ c ∈ natStrGo fuel n acc,
      c ∈ acc ∨ c.isDigit = true := by
  have hdig : ∀ d, d < 10 → (digitChar d).isDigit = true := by decide
  intro fuel
  induction fuel with
  | zero => intro n acc c hc; exact Or.inl hc
  | succ fuel ih =>
    intro n acc c hc
    rw [natStrGo] at hc
    split at hc
    case isTrue h =>
      rcases List.mem_cons.mp hc with rfl | hacc
      · exact Or.inr (hdig n h)
      · exact Or.inl hacc
    case isFalse h =>
      rcases ih (n / 10) _ c hc with hmem | hd
      · rcases List.mem_cons.mp hmem with rfl | hacc
        · exact Or.inr (hdig _ (Nat.mod_lt _ (by omega)))
        · exact Or.inl hacc
      · exact Or.inr hd

theorem natStr_digits (n : Nat) : ∀ c ∈ (natStr n).data, c.isDigit = true := by
  intro c hc
  rcases natStrGo_chars (n + 1) n [] c hc with h | h
  · cases h
  · exact h

theorem natStr_no_dot (n : Nat) : '.' ∉ (natStr n).data := by
  intro h
  have := natStr_digits n '.' h
  simp [Char.isDigit] at this

theorem fmtNum_int {q : ℚ} (hden : q.den = 1) (hpos : 0 < q) :
    fmtNum q = natStr q.num.natAbs := by
  unfold fmtNum
  rw [if_pos hden]
  unfold intStr
  rw [if_neg (by exact not_lt.mpr (le_of_lt (Rat.num_pos.mpr hpos)))]

theorem fmtNum_no_dot {q : ℚ} (hden : q.den = 1) (hpos : 0 < q) :
    '.' ∉ (fmtNum q).data := by
  rw [fmtNum_int hden hpos]
  exact natStr_no_dot _

theorem parseList_ok_of_all {α β : Type} {f : α → Except String β} :
    ∀ {xs : List α}, (∀ x ∈ xs, exOk (f x) = true) → exOk (parseList f xs) = true := by
  intro xs
  induction xs with
  | nil => intro _; rfl
  | cons x xs ih =>
    intro h
    obtain ⟨y, hy⟩ := (exOk_iff _).mp (h x (List.mem_cons_self x xs))
    obtain ⟨ys, hys⟩ := (exOk_iff _).mp (ih fun a ha => h a (List.mem_cons_of_mem x ha))
    simp [parseList_cons, hy, hys, Except.bind, exOk]

theorem unknown_kind_fails (d : Document) (opts : Options)
    (h : ∃ p ∈ d.pages, ∃ e ∈ p.elements, e.type ∉ knownKinds) :
    ∃ m, render_pdf d opts = .error m := by
  cases hr : render_pdf d opts with
  | error m => exact ⟨m, rfl⟩
  | ok out =>
    obtain ⟨pd, hpd⟩ := parse_ok_of_render_ok hr
    obtain ⟨p, hp, e, he, hk⟩ := h
    obtain ⟨pp, _, hppok⟩ := forall2_exists_of_mem (parseDoc_ok_elim hpd).2.2.2 hp
    obtain ⟨el, _, helok⟩ := forall2_exists_of_mem (parsePage_ok_elim hppok).2.2.2 he
    exact absurd (parseElement_ok_kind helok) hk

theorem first_fault_names_kind (d : Document) (opts : Options) (ps : List Page) (pb : Page)
    (rest : List Page) (es : List RawElement) (eb : RawElement) (es' : List RawElement)
    (hsplit : d.pages = ps ++ pb :: rest)
    (hps : ∀ p ∈ ps, exOk (parsePage d.resources p) = true)
    (hesplit : pb.elements = es ++ eb :: es')
    (hes : ∀ e ∈ es, exOk (parseElement d.resources e) = true)
    (hpos : 0 < pb.size.1 ∧ 0 < pb.size.2)
    (hbg : exOk (checkColorOpt pb.background) = true)
    (hfonts : ∀ f ∈ d.resources.fonts, exOk (checkFontRes f.2) = true)
    (himgs : ∀ i ∈ d.resources.images, exOk (checkImageRes i.2) = true)
    (hk : eb.type ∉ knownKinds) :
    render_pdf d opts = .error ("Unknown element type: " ++ eb.type) := by
  have helems : parseList (parseElement d.resources) pb.elements =
      .error ("Unknown element type: " ++ eb.type) := by
    rw [hesplit]
    exact parseList_error_of_split _ es eb es' _ hes (parseElement_unknown hk)
  have hpage := parsePage_error_of_elems hpos hbg helems
  have hpages : parseList (parsePage d.resources) d.pages =
      .error ("Unknown element type: " ++ eb.type) := by
    rw [hsplit]
    exact parseList_error_of_split _ ps pb rest _ hps hpage
  exact render_error_of_parse
    (parseDoc_error_of_pages (parseList_ok_of_all hfonts) (parseList_ok_of_all himgs) hpages)

/-! The claims. -/

/-- C1: for every valid document, the rendered byte sequence starts with the
header `%PDF-1.` and ends with `%%EOF` followed by at most one trailing
newline (the model emits no trailing newline, satisfying the bound). -/
theorem c1_header_and_eof (d : Document) (opts : Options) (hv : validDoc d) :
    ∃ out, render_pdf d opts = .ok out ∧ chs "%PDF-1." <+: out ∧
      (chs "%%EOF" <:+ out ∨ chs "%%EOF\n" <:+ out) := by
  obtain ⟨pd, _, hout⟩ := render_ok_of_valid hv opts
  exact ⟨_, hout, output_starts _ _ _, Or.inl (output_ends _ _ _)⟩

/-- C1 witness: the header and trailer properties hold for the concrete
minimal one-page document. -/
theorem c1_witness :
    ∃ out, render_pdf docEmptyPage defaultOptions = .ok out ∧ chs "%PDF-1." <+: out ∧
      (chs "%%EOF" <:+ out ∨ chs "%%EOF\n" <:+ out) :=
  c1_header_and_eof docEmptyPage defaultOptions (by decide)

/-- C2: for every valid document the rendered output contains exactly one
catalog object and exactly one page-tree object, the number of page objects
equals the number of input pages, and the page tree's `/Count N` entry (with
N the page count), `/Type /Catalog` and `/Type /Pages` markers appear in the
output bytes. -/
theorem c2_object_counts (d : Document) (opts : Options) (hv : validDoc d) :
    ∃ pd out, parseDoc d = .ok pd ∧ render_pdf d opts = .ok out ∧
      countKind (objsOf pd opts) .catalog = 1 ∧
      countKind (objsOf pd opts) .pagesNode = 1 ∧
      countKind (objsOf pd opts) .page = d.pages.length ∧
      chs "/Type /Catalog" <:+: out ∧ chs "/Type /Pages" <:+: out ∧
      chs ("/Count " ++ natStr d.pages.length) <:+: out := by
  obtain ⟨pd, hpd, hout⟩ := render_ok_of_valid hv opts
  have hlen : pd.pages.length = d.pages.length :=
    ((parseDoc_ok_elim hpd).2.2.2).length_eq.symm
  refine ⟨pd, _, hpd, hout, countKind_objsOf_catalog pd opts,
    countKind_objsOf_pagesNode pd opts, by rw [countKind_objsOf_page]; exact hlen,
    body_infix_output (catalog_mem_objsOf pd opts) (catalog_mark_in_body _ _),
    body_infix_output (pagesNode_mem_objsOf pd opts) (pagesNode_mark_in_body _ _ _), ?_⟩
  have h := @body_infix_output (chs ("/Count " ++ natStr pd.pages.length))
    (pagesNodeObj (pagesNumOf pd) (baseOf pd) pd.pages.length) (objsOf pd opts)
    (catalogNumOf pd) (infoNumOf pd) (pagesNode_mem_objsOf pd opts)
    (count_infix_pagesNode (pagesNumOf pd) (baseOf pd) pd.pages.length)
  rwa [hlen] at h

/-- C2 witness: the counts hold for the concrete minimal one-page document. -/
theorem c2_witness :
    ∃ pd out, parseDoc docEmptyPage = .ok pd ∧
      render_pdf docEmptyPage defaultOptions = .ok out ∧
      countKind (objsOf pd defaultOptions) .catalog = 1 ∧
      countKind (objsOf pd defaultOptions) .pagesNode = 1 ∧
      countKind (objsOf pd defaultOptions) .page = docEmptyPage.pages.length ∧
      chs "/Type /Catalog" <:+: out ∧ chs "/Type /Pages" <:+: out ∧
      chs ("/Count " ++ natStr docEmptyPage.pages.length) <:+: out :=
  c2_object_counts docEmptyPage defaultOptions (by decide)

set_option maxRecDepth 400000 in
/-- C3 counterexample: on the valid minimal document with one empty page,
rendering with `compress=true` produces strictly more bytes than with
`compress=false` — the zlib framing and the `/Filter /FlateDecode` entry
outweigh any saving on the tiny stream — so the claimed size inequality
fails. -/
theorem c3_counterexample :
    validDoc docEmptyPage ∧
      outLen (render_pdf docEmptyPage { compress := false }) <
        outLen (render_pdf docEmptyPage { compress := true }) ∧
      exOk (render_pdf docEmptyPage { compress := true }) = true ∧
      exOk (render_pdf docEmptyPage { compress := false }) = true := by
  decide

/-- C3 (amended): for every valid document, the uncompressed rendering
flate-flags no object, the compressed rendering flate-flags every stream
object (content streams, font files, image and form XObjects), and when the
document has at least one page the compressed output contains
`/FlateDecode`; the size inequality `compressed ≤ uncompressed` does not
hold universally (it fails on an empty page, see the counterexample) and
holds only when the streams compress well enough to offset the filter-entry
and zlib-framing overhead. -/
theorem c3_amended (d : Document) (hv : validDoc d) :
    ∃ pd outU outC, parseDoc d = .ok pd ∧
      render_pdf d { compress := false } = .ok outU ∧
      render_pdf d { compress := true } = .ok outC ∧
      (∀ o ∈ objsOf pd { compress := false }, o.flate = false) ∧
      (∀ o ∈ objsOf pd { compress := true },
        (o.kind = .content ∨ o.kind = .fontFile ∨ o.kind = .imageXObj ∨ o.kind = .formXObj) →
          o.flate = true) ∧
      (d.pages ≠ [] → chs "/FlateDecode" <:+: outC) := by
  obtain ⟨pd, hpd, houtU⟩ := render_ok_of_valid hv { compress := false }
  obtain ⟨pd', hpd', houtC⟩ := render_ok_of_valid hv { compress := true }
  rw [hpd] at hpd'
  cases hpd'
  refine ⟨pd, _, _, hpd, houtU, houtC, objsOf_flate_uncompressed, objsOf_flate_compressed, ?_⟩
  intro hne
  have hlen : pd.pages.length = d.pages.length :=
    ((parseDoc_ok_elim hpd).2.2.2).length_eq.symm
  have hppne : pd.pages ≠ [] := by
    intro h0
    rw [h0] at hlen
    exact hne (List.length_eq_zero.mp hlen.symm)
  obtain ⟨p, ps', hps⟩ : ∃ p ps', pd.pages = p :: ps' := by
    cases hpp : pd.pages with
    | nil => exact absurd hpp hppne
    | cons a l => exact ⟨a, l, rfl⟩
  have hmem := content_mem_objsOf hps { compress := true }
  exact body_infix_output hmem (streamBody_mark "" (emitPage pd.fonts pd.images p))

/-- C3 (amended) witness: the flate-flag facts hold for the concrete minimal
one-page document. -/
theorem c3_witness :
    ∃ pd outU outC, parseDoc docEmptyPage = .ok pd ∧
      render_pdf docEmptyPage { compress := false } = .ok outU ∧
      render_pdf docEmptyPage { compress := true } = .ok outC ∧
      (∀ o ∈ objsOf pd { compress := false }, o.flate = false) ∧
      (∀ o ∈ objsOf pd { compress := true },
        (o.kind = .content ∨ o.kind = .fontFile ∨ o.kind = .imageXObj ∨ o.kind = .formXObj) →
          o.flate = true) ∧
      (docEmptyPage.pages ≠ [] → chs "/FlateDecode" <:+: outC) :=
  c3_amended docEmptyPage (by decide)

/-- C4: rendering is deterministic — identical documents and identical
options give byte-for-byte identical output; in the model the whole pipeline
is a pure function of the document and the options (the subset tag and the
compressor are deterministic functions). -/
theorem c4_deterministic (d₁ d₂ : Document) (o₁ o₂ : Options)
    (hd : d₁ = d₂) (ho : o₁ = o₂) : render_pdf d₁ o₁ = render_pdf d₂ o₂ := by
  rw [hd, ho]

/-- C4 witness: determinism at the concrete minimal document. -/
theorem c4_witness :
    render_pdf docEmptyPage defaultOptions = render_pdf docEmptyPage defaultOptions :=
  c4_deterministic docEmptyPage docEmptyPage defaultOptions defaultOptions rfl rfl

/-- C5 counterexample: the package's public interface
(`src/python/rupdf/__init__.py`, `__all__`) does not export a function named
`render`; the entry point is named `render_pdf`. -/
theorem c5_counterexample : "render" ∉ rupdfAll ∧ "render_pdf" ∈ rupdfAll := by decide

/-- C5 (amended): the system exposes exactly one public entry point, the
function `render_pdf` (exported alongside the single error type
`RupdfError` and nothing else), and its `compress` option defaults to
false. -/
theorem c5_amended :
    rupdfAll = ["render_pdf", "RupdfError"] ∧ defaultOptions.compress = false :=
  ⟨rfl, rfl⟩

/-- C6: a document with an empty `pages` list (the resources mapping being
present, as the document model requires) renders successfully to a PDF with
zero page objects that still starts with `%PDF-` and ends with `%%EOF`. -/
theorem c6_empty_pages (d : Document) (opts : Options) (hv : validDoc d)
    (hp : d.pages = []) :
    ∃ pd out, parseDoc d = .ok pd ∧ render_pdf d opts = .ok out ∧
      countKind (objsOf pd opts) .page = 0 ∧
      chs "%PDF-" <+: out ∧ chs "%%EOF" <:+ out := by
  obtain ⟨pd, hpd, hout⟩ := render_ok_of_valid hv opts
  have hlen : pd.pages.length = d.pages.length :=
    ((parseDoc_ok_elim hpd).2.2.2).length_eq.symm
  refine ⟨pd, _, hpd, hout, ?_, ?_, output_ends _ _ _⟩
  · rw [countKind_objsOf_page, hlen, hp]
    rfl
  · have h5 : chs "%PDF-" <+: chs "%PDF-1." := by decide
    exact h5.trans (output_starts _ _ _)

/-- C6 witness: the concrete document with no pages renders as claimed. -/
theorem c6_witness :
    ∃ pd out, parseDoc docNoPages = .ok pd ∧
      render_pdf docNoPages defaultOptions = .ok out ∧
      countKind (objsOf pd defaultOptions) .page = 0 ∧
      chs "%PDF-" <+: out ∧ chs "%%EOF" <:+ out :=
  c6_empty_pages docNoPages defaultOptions (by decide) rfl

/-- C7: for every valid document and every page of size `(W, H)`, the output
contains `/MediaBox [0 0 W H]` with the supplied dimensions, and when a
dimension is integral its text is a plain digit numeral (no decimal
point). -/
theorem c7_mediabox (d : Document) (opts : Options) (hv : validDoc d) :
    ∃ out, render_pdf d opts = .ok out ∧
      ∀ p ∈ d.pages,
        chs ("/MediaBox [0 0 " ++ fmtNum p.size.1 ++ " " ++ fmtNum p.size.2 ++ "]") <:+: out ∧
          (p.size.1.den = 1 →
            fmtNum p.size.1 = natStr p.size.1.num.natAbs ∧ '.' ∉ (fmtNum p.size.1).data) ∧
          (p.size.2.den = 1 →
            fmtNum p.size.2 = natStr p.size.2.num.natAbs ∧ '.' ∉ (fmtNum p.size.2).data) := by
  obtain ⟨pd, hpd, hout⟩ := render_ok_of_valid hv opts
  refine ⟨_, hout, fun p hp => ?_⟩
  obtain ⟨pp, hppmem, hppok⟩ := forall2_exists_of_mem (parseDoc_ok_elim hpd).2.2.2 hp
  obtain ⟨hpos, hw, hh, _⟩ := parsePage_ok_elim hppok
  obtain ⟨num, cnum, hm⟩ := pageObj_mem_objsOf opts hppmem
  have hmb := mediaBox_infix_pageObj num cnum (pagesNumOf pd) pd.fonts.length pd.images.length pp
  rw [hw, hh] at hmb
  exact ⟨body_infix_output hm hmb,
    fun hden => ⟨fmtNum_int hden hpos.1, fmtNum_no_dot hden hpos.1⟩,
    fun hden => ⟨fmtNum_int hden hpos.2, fmtNum_no_dot hden hpos.2⟩⟩

/-- C7 witness: the MediaBox entry for the concrete 612 by 792 page. -/
theorem c7_witness :
    ∃ out, render_pdf docEmptyPage defaultOptions = .ok out ∧
      ∀ p ∈ docEmptyPage.pages,
        chs ("/MediaBox [0 0 " ++ fmtNum p.size.1 ++ " " ++ fmtNum p.size.2 ++ "]") <:+: out ∧
          (p.size.1.den = 1 →
            fmtNum p.size.1 = natStr p.size.1.num.natAbs ∧ '.' ∉ (fmtNum p.size.1).data) ∧
          (p.size.2.den = 1 →
            fmtNum p.size.2 = natStr p.size.2.num.natAbs ∧ '.' ∉ (fmtNum p.size.2).data) :=
  c7_mediabox docEmptyPage defaultOptions (by decide)

set_option maxRecDepth 400000 in
/-- C8 counterexample: the claim fails as universally stated — in a document
whose rect element (missing its required fields) precedes the unknown-kind
`circle` element, the first unrecoverable condition aborts rendering, so the
error names the rect's missing field and not the unknown kind. -/
theorem c8_counterexample :
    exOk (render_pdf docRectThenCircle defaultOptions) = false ∧
      exErr (render_pdf docRectThenCircle defaultOptions) =
        "rect element missing required field: w" ∧
      ¬(chs "circle" <:+: chs "rect element missing required field: w") := by
  decide

/-- C8 (amended): any document containing an element of unrecognized kind
fails to render (no bytes are returned), and when that element is the first
invalid condition in traversal order — all pages before it parse, the
elements before it parse, its page's dimensions and background are valid,
and the resources validate — the error message names the unknown kind. -/
theorem c8_amended :
    (∀ (d : Document) (opts : Options),
        (∃ p ∈ d.pages, ∃ e ∈ p.elements, e.type ∉ knownKinds) →
          ∃ m, render_pdf d opts = .error m) ∧
      (∀ (d : Document) (opts : Options) (ps : List Page) (pb : Page) (rest : List Page)
          (es : List RawElement) (eb : RawElement) (es' : List RawElement),
          d.pages = ps ++ pb :: rest →
          (∀ p ∈ ps, exOk (parsePage d.resources p) = true) →
          pb.elements = es ++ eb :: es' →
          (∀ e ∈ es, exOk (parseElement d.resources e) = true) →
          (0 < pb.size.1 ∧ 0 < pb.size.2) →
          exOk (checkColorOpt pb.background) = true →
          (∀ f ∈ d.resources.fonts, exOk (checkFontRes f.2) = true) →
          (∀ i ∈ d.resources.images, exOk (checkImageRes i.2) = true) →
          eb.type ∉ knownKinds →
          render_pdf d opts = .error ("Unknown element type: " ++ eb.type) ∧
            chs eb.type <:+: chs ("Unknown element type: " ++ eb.type)) := by
  constructor
  · exact unknown_kind_fails
  · intro d opts ps pb rest es eb es' hsplit hps hesplit hes hpos hbg hfonts himgs hk
    refine ⟨first_fault_names_kind d opts ps pb rest es eb es' hsplit hps hesplit hes hpos
      hbg hfonts himgs hk, ?_⟩
    exact ⟨chs "Unknown element type: ", [], by simp [chs]⟩

/-- C8 witness: the amended claim at the concrete document whose only
element is an unknown-kind `circle` — rendering fails with an error naming
`circle`. -/
theorem c8_witness :
    render_pdf docCircle defaultOptions = .error ("Unknown element type: " ++ "circle") ∧
      chs "circle" <:+: chs ("Unknown element type: " ++ "circle") :=
  c8_amended.2 docCircle defaultOptions []
    { size := (612, 792),
      elements := [{ type := "circle", x := some 100, y := some 100 }] } []
    [] { type := "circle", x := some 100, y := some 100 } []
    rfl (by simp) rfl (by simp) (by constructor <;> norm_num) (by decide)
    (by simp [docCircle]) (by simp [docCircle]) (by decide)

/-- C9: a document containing a page with zero or negative width or height
fails to render; dimensions are rationals in the model, so the non-finite
case of the claim has no representation and the zero/negative cases carry
the content. -/
theorem c9_bad_dimensions (d : Document) (opts : Options)
    (h : ∃ p ∈ d.pages, p.size.1 ≤ 0 ∨ p.size.2 ≤ 0) :
    ∃ m, render_pdf d opts = .error m := by
  cases hr : render_pdf d opts with
  | error m => exact ⟨m, rfl⟩
  | ok out =>
    obtain ⟨pd, hpd⟩ := parse_ok_of_render_ok hr
    obtain ⟨p, hp, hbad⟩ := h
    obtain ⟨pp, _, hppok⟩ := forall2_exists_of_mem (parseDoc_ok_elim hpd).2.2.2 hp
    have hpos := (parsePage_ok_elim hppok).1
    rcases hbad with hb | hb
    · exact absurd hpos.1 (not_lt.mpr hb)
    · exact absurd hpos.2 (not_lt.mpr hb)

/-- C9 witness: the concrete document with a page of size `(0, 792)` fails. -/
theorem c9_witness : ∃ m, render_pdf docZeroWidth defaultOptions = .error m :=
  c9_bad_dimensions docZeroWidth defaultOptions
    ⟨{ size := (0, 792) }, List.mem_singleton.mpr rfl, Or.inl le_rfl⟩

set_option maxRecDepth 400000 in
/-- C10 counterexample: the claim fails against the specification's element
model — a document whose barcode element carries the kind tag `barcode`
(instead of `barcode128`) does not render; it aborts with an unknown-kind
error naming `barcode`. -/
theorem c10_counterexample :
    exOk (render_pdf docBarcodeTag defaultOptions) = false ∧
      exErr (render_pdf docBarcodeTag defaultOptions) = "Unknown element type: barcode" := by
  decide

/-- C10 (amended): under the spec's element table, `barcode` is not a
recognized kind tag: every document containing an element tagged `barcode`
fails to render, and the concrete demo-script-shaped barcode document fails
with an error naming the tag. -/
theorem c10_amended :
    (∀ (d : Document) (opts : Options),
        (∃ p ∈ d.pages, ∃ e ∈ p.elements, e.type = "barcode") →
          ∃ m, render_pdf d opts = .error m) ∧
      render_pdf docBarcodeTag defaultOptions =
        .error ("Unknown element type: " ++ "barcode") := by
  constructor
  · intro d opts ⟨p, hp, e, he, htype⟩
    exact unknown_kind_fails d opts ⟨p, hp, e, he, by rw [htype]; decide⟩
  · exact first_fault_names_kind docBarcodeTag defaultOptions []
      { size := (612, 792),
        elements := [{ type := "barcode", x := some 56, y := some 150,
                       w := some 200, h := some 50, value := some "ABC-12345" }] } []
      [] { type := "barcode", x := some 56, y := some 150,
           w := some 200, h := some 50, value := some "ABC-12345" } []
      rfl (by simp) rfl (by simp) (by constructor <;> norm_num) (by decide)
      (by simp [docBarcodeTag]) (by simp [docBarcodeTag]) (by decide)

/-- C10 witness: the amended claim applied to the concrete barcode-tagged
document. -/
theorem c10_witness : ∃ m, render_pdf docBarcodeTag defaultOptions = .error m :=
  c10_amended.1 docBarcodeTag defaultOptions
    ⟨{ size := (612, 792),
       elements := [{ type := "barcode", x := some 56, y := some 150,
                      w := some 200, h := some 50, value := some "ABC-12345" }] },
      List.mem_singleton.mpr rfl,
      { type := "barcode", x := some 56, y := some 150,
        w := some 200, h := some 50, value := some "ABC-12345" },
      List.mem_singleton.mpr rfl, rfl⟩

end Rupdf
